/- Verification of the generation pipeline of the AI-Driven Custom Home Design
Assistant (src/ai_services.py): prompt builders, room/style normalization maps,
curated image fallback table, layout-response parser, and the image resolution
cascade of class AIService.  Python strings are modelled as Lean String values,
character lists as List Char; remote HTTP calls are modelled by explicit
environment/oracle parameters (status codes and response bodies), so that every
code path of the source is a total Lean function of the code's inputs plus the
network outcomes. -/
import Mathlib

namespace HomeDesign

/-- Python str.strip() whitespace test, restricted to the ASCII whitespace
characters Python strips (space, tab, newline, carriage return, vertical tab,
form feed). -/
def isPySpace (c : Char) : Bool :=
  c == ' ' || c == '\t' || c == '\n' || c == '\r' || c == '\x0b' || c == '\x0c'

/-- Python str.strip() on a character list: drop leading and trailing
whitespace. -/
def pyStrip (s : List Char) : List Char :=
  ((s.dropWhile isPySpace).reverse.dropWhile isPySpace).reverse

/-- Python str.lower() for the ASCII range (the source only feeds ASCII UI
vocabulary through .lower()). -/
def pyLower (s : String) : String :=
  String.mk (s.data.map Char.toLower)

/-- Python ", ".join(l) : comma-space join of a list of strings. -/
def joinComma : List String → String
  | [] => ""
  | [c] => c
  | c :: c2 :: rest => c ++ ", " ++ joinComma (c2 :: rest)

/-- Boolean test: does the needle occur at the very start of the haystack. -/
def isPrefixL : List Char → List Char → Bool
  | [], _ => true
  | _ :: _, [] => false
  | a :: as, b :: bs => a == b && isPrefixL as bs

/-- Boolean substring test: does the needle occur contiguously anywhere in the
haystack (Python `needle in hay`). -/
def containsSub (needle : List Char) : List Char → Bool
  | [] => isPrefixL needle []
  | c :: rest => isPrefixL needle (c :: rest) || containsSub needle (rest)

/-- Propositional form of contiguous substring occurrence. -/
def SubStr (needle s : List Char) : Prop :=
  ∃ a b, s = a ++ needle ++ b

theorem isPrefixL_iff (n : List Char) : ∀ (s : List Char),
    isPrefixL n s = true ↔ ∃ t, s = n ++ t := by
  induction n with
  | nil => intro s; simp [isPrefixL]
  | cons a as ih =>
    intro s
    cases s with
    | nil => simp [isPrefixL]
    | cons b bs =>
      simp only [isPrefixL, Bool.and_eq_true, beq_iff_eq, ih bs]
      constructor
      · rintro ⟨rfl, t, rfl⟩; exact ⟨t, rfl⟩
      · rintro ⟨t, h⟩
        simp only [List.cons_append, List.cons.injEq] at h
        exact ⟨h.1.symm, t, h.2⟩

theorem containsSub_iff (needle : List Char) : ∀ (s : List Char),
    containsSub needle s = true ↔ SubStr needle s := by
  intro s
  induction s with
  | nil =>
    simp only [containsSub, isPrefixL_iff, SubStr]
    constructor
    · rintro ⟨t, h⟩
      exact ⟨[], t, by simpa using h⟩
    · rintro ⟨a, b, h⟩
      refine ⟨b, ?_⟩
      have ha : a = [] := by
        cases a with
        | nil => rfl
        | cons x xs => simp at h
      subst ha; simpa using h
  | cons c rest ih =>
    simp only [containsSub, Bool.or_eq_true, isPrefixL_iff, ih]
    constructor
    · rintro (⟨t, h⟩ | ⟨a, b, h⟩)
      · exact ⟨[], t, by simpa using h⟩
      · exact ⟨c :: a, b, by simp [h]⟩
    · rintro ⟨a, b, h⟩
      cases a with
      | nil => exact Or.inl ⟨b, by simpa using h⟩
      | cons x xs =>
        simp only [List.cons_append, List.cons.injEq] at h
        exact Or.inr ⟨xs, b, h.2⟩

theorem SubStr.mem_of_mem {needle s : List Char} (h : SubStr needle s)
    {c : Char} (hc : c ∈ needle) : c ∈ s := by
  obtain ⟨a, b, rfl⟩ := h
  simp [List.mem_append, hc]

theorem SubStr_append_left {needle a : List Char} (b : List Char)
    (h : SubStr needle a) : SubStr needle (a ++ b) := by
  obtain ⟨x, y, rfl⟩ := h
  exact ⟨x, y ++ b, by simp⟩

theorem SubStr_append_right (a : List Char) {needle b : List Char}
    (h : SubStr needle b) : SubStr needle (a ++ b) := by
  obtain ⟨x, y, rfl⟩ := h
  exact ⟨a ++ x, y, by simp⟩

theorem SubStr_middle (a b needle : List Char) : SubStr needle (a ++ needle ++ b) :=
  ⟨a, b, rfl⟩

/-- String append acts as list append on the underlying character data. -/
theorem strData_append (a b : String) : (a ++ b).data = a.data ++ b.data := by
  cases a; cases b; rfl

theorem ne_empty_of_data_ne {s : String} (h : s.data ≠ []) : s ≠ "" := by
  intro he
  exact h (by rw [he])

/-- The preferences record handed to AIService by the UI layer.  The fields the
source reads with `preferences[...]` (raising KeyError when absent) are plain
strings; the fields read with `preferences.get(key, default)` are Option, so the
dict-get defaults of the source are modelled exactly. -/
structure Preferences where
  room_type : String
  style : String
  budget : String
  space_size : String
  colors : Option (List String)
  features : Option (List String)
  description : Option String

/-- AIService._create_layout_prompt: the f-string template of lines 213-236 of
src/ai_services.py, transcribed byte for byte (8-space indentation and the
trailing-whitespace lines of the triple-quoted string included). -/
def _create_layout_prompt (p : Preferences) : String :=
  "\n        Create 1 detailed home layout idea for a " ++ p.room_type ++
  " with the following specifications:\n        \n        Style: " ++ p.style ++
  "\n        Budget Range: " ++ p.budget ++
  "\n        Space Size: " ++ p.space_size ++
  "\n        Color Preferences: " ++ joinComma (p.colors.getD []) ++
  "\n        Special Features: " ++ joinComma (p.features.getD []) ++
  "\n        Additional Notes: " ++ p.description.getD "" ++
  "\n        \n        For the layout, provide:\n        1. A descriptive title\n        2. Detailed layout description (150-200 words)\n        3. Key features and furniture placement\n        4. Color scheme and materials\n        5. Lighting suggestions\n        6. Budget-conscious tips\n        \n        Format the layout as:\n        LAYOUT 1:\n        [Detailed description]\n        \n        Make the layout unique and practical while staying within the specified parameters.\n        "

/-- AIService._create_detailed_image_prompt (lines 202-209).  Note the source
lowercases style and room type and never uses the description argument. -/
def _create_detailed_image_prompt (description : String) (p : Preferences) : String :=
  let _ := description
  let colors := joinComma (p.colors.getD ["white", "gray"])
  "A beautiful " ++ pyLower p.style ++ " " ++ pyLower p.room_type ++
  " interior design with " ++ colors ++
  " color scheme, professional interior photography, high quality, well-lit, photorealistic"

/-- Association-list lookup mirroring Python dict membership test plus
subscript / dict.get on the literal dicts of the source (keys are distinct, so
insertion-order lookup equals dict lookup). -/
def lookupL {α : Type} (k : String) : List (String × α) → Option α
  | [] => none
  | (k', v) :: rest => if k = k' then some v else lookupL k rest

/-- The literal dict of AIService._map_room_type (lines 264-274). -/
def roomMapping : List (String × String) :=
  [("Living Room", "living"),
   ("Bedroom", "bedroom"),
   ("Master Bedroom", "bedroom"),
   ("Children\x27s Room", "bedroom"),
   ("Kitchen", "kitchen"),
   ("Bathroom", "bathroom"),
   ("Home Office", "office"),
   ("Study Room", "office"),
   ("Dining Room", "dining")]

/-- AIService._map_room_type: mapping.get(room_type, 'living'). -/
def _map_room_type (room_type : String) : String :=
  (lookupL room_type roomMapping).getD "living"

/-- The literal dict of AIService._map_style (lines 279-292). -/
def styleMapping : List (String × String) :=
  [("Modern", "modern"),
   ("Contemporary", "modern"),
   ("Traditional", "traditional"),
   ("Minimalist", "scandinavian"),
   ("Scandinavian", "scandinavian"),
   ("Industrial", "industrial"),
   ("Bohemian", "bohemian"),
   ("Rustic", "traditional"),
   ("Mid-Century Modern", "modern"),
   ("Art Deco", "modern"),
   ("Mediterranean", "traditional"),
   ("Farmhouse", "traditional")]

/-- AIService._map_style: mapping.get(style, 'modern'). -/
def _map_style (style : String) : String :=
  (lookupL style styleMapping).getD "modern"

/-- The literal nested dict of AIService._get_curated_image (lines 297-460),
as an insertion-ordered association list. -/
def curated_images : List (String × List (String × List String)) :=
  [("living",
    [("modern",
      ["https://images.pexels.com/photos/1571460/pexels-photo-1571460.jpeg",
       "https://images.pexels.com/photos/2062426/pexels-photo-2062426.jpeg",
       "https://images.pexels.com/photos/1080721/pexels-photo-1080721.jpeg"]),
     ("traditional",
      ["https://images.pexels.com/photos/1648776/pexels-photo-1648776.jpeg",
       "https://images.pexels.com/photos/1743229/pexels-photo-1743229.jpeg",
       "https://images.pexels.com/photos/1395967/pexels-photo-1395967.jpeg"]),
     ("scandinavian",
      ["https://images.pexels.com/photos/1571453/pexels-photo-1571453.jpeg",
       "https://images.pexels.com/photos/1454806/pexels-photo-1454806.jpeg",
       "https://images.pexels.com/photos/2062426/pexels-photo-2062426.jpeg"]),
     ("industrial",
      ["https://images.pexels.com/photos/1080721/pexels-photo-1080721.jpeg",
       "https://images.pexels.com/photos/1329711/pexels-photo-1329711.jpeg",
       "https://images.pexels.com/photos/2089698/pexels-photo-2089698.jpeg"]),
     ("bohemian",
      ["https://images.pexels.com/photos/1457842/pexels-photo-1457842.jpeg",
       "https://images.pexels.com/photos/1080696/pexels-photo-1080696.jpeg",
       "https://images.pexels.com/photos/1743229/pexels-photo-1743229.jpeg"])]),
   ("bedroom",
    [("modern",
      ["https://images.pexels.com/photos/164595/pexels-photo-164595.jpeg",
       "https://images.pexels.com/photos/1454806/pexels-photo-1454806.jpeg",
       "https://images.pexels.com/photos/1080696/pexels-photo-1080696.jpeg"]),
     ("traditional",
      ["https://images.pexels.com/photos/1743229/pexels-photo-1743229.jpeg",
       "https://images.pexels.com/photos/1648776/pexels-photo-1648776.jpeg",
       "https://images.pexels.com/photos/164595/pexels-photo-164595.jpeg"]),
     ("scandinavian",
      ["https://images.pexels.com/photos/1454806/pexels-photo-1454806.jpeg",
       "https://images.pexels.com/photos/1080696/pexels-photo-1080696.jpeg",
       "https://images.pexels.com/photos/164595/pexels-photo-164595.jpeg"]),
     ("industrial",
      ["https://images.pexels.com/photos/1329711/pexels-photo-1329711.jpeg",
       "https://images.pexels.com/photos/1080696/pexels-photo-1080696.jpeg",
       "https://images.pexels.com/photos/164595/pexels-photo-164595.jpeg"]),
     ("bohemian",
      ["https://images.pexels.com/photos/1080696/pexels-photo-1080696.jpeg",
       "https://images.pexels.com/photos/1457842/pexels-photo-1457842.jpeg",
       "https://images.pexels.com/photos/1743229/pexels-photo-1743229.jpeg"])]),
   ("kitchen",
    [("modern",
      ["https://images.pexels.com/photos/2724748/pexels-photo-2724748.jpeg",
       "https://images.pexels.com/photos/2062426/pexels-photo-2062426.jpeg",
       "https://images.pexels.com/photos/2089698/pexels-photo-2089698.jpeg"]),
     ("traditional",
      ["https://images.pexels.com/photos/1599791/pexels-photo-1599791.jpeg",
       "https://images.pexels.com/photos/2724748/pexels-photo-2724748.jpeg",
       "https://images.pexels.com/photos/1648776/pexels-photo-1648776.jpeg"]),
     ("scandinavian",
      ["https://images.pexels.com/photos/2062426/pexels-photo-2062426.jpeg",
       "https://images.pexels.com/photos/2724748/pexels-photo-2724748.jpeg",
       "https://images.pexels.com/photos/1599791/pexels-photo-1599791.jpeg"]),
     ("industrial",
      ["https://images.pexels.com/photos/2089698/pexels-photo-2089698.jpeg",
       "https://images.pexels.com/photos/2724748/pexels-photo-2724748.jpeg",
       "https://images.pexels.com/photos/1599791/pexels-photo-1599791.jpeg"]),
     ("bohemian",
      ["https://images.pexels.com/photos/1599791/pexels-photo-1599791.jpeg",
       "https://images.pexels.com/photos/2724748/pexels-photo-2724748.jpeg",
       "https://images.pexels.com/photos/1457842/pexels-photo-1457842.jpeg"])]),
   ("bathroom",
    [("modern",
      ["https://images.pexels.com/photos/1358912/pexels-photo-1358912.jpeg",
       "https://images.pexels.com/photos/2062426/pexels-photo-2062426.jpeg",
       "https://images.pexels.com/photos/1080721/pexels-photo-1080721.jpeg"]),
     ("traditional",
      ["https://images.pexels.com/photos/1454806/pexels-photo-1454806.jpeg",
       "https://images.pexels.com/photos/1358912/pexels-photo-1358912.jpeg",
       "https://images.pexels.com/photos/1648776/pexels-photo-1648776.jpeg"]),
     ("scandinavian",
      ["https://images.pexels.com/photos/1080696/pexels-photo-1080696.jpeg",
       "https://images.pexels.com/photos/1358912/pexels-photo-1358912.jpeg",
       "https://images.pexels.com/photos/2062426/pexels-photo-2062426.jpeg"]),
     ("industrial",
      ["https://images.pexels.com/photos/1329711/pexels-photo-1329711.jpeg",
       "https://images.pexels.com/photos/1358912/pexels-photo-1358912.jpeg",
       "https://images.pexels.com/photos/1080721/pexels-photo-1080721.jpeg"]),
     ("bohemian",
      ["https://images.pexels.com/photos/1457842/pexels-photo-1457842.jpeg",
       "https://images.pexels.com/photos/1358912/pexels-photo-1358912.jpeg",
       "https://images.pexels.com/photos/1080696/pexels-photo-1080696.jpeg"])]),
   ("office",
    [("modern",
      ["https://images.pexels.com/photos/667838/pexels-photo-667838.jpeg",
       "https://images.pexels.com/photos/1181406/pexels-photo-1181406.jpeg",
       "https://images.pexels.com/photos/1080721/pexels-photo-1080721.jpeg"]),
     ("traditional",
      ["https://images.pexels.com/photos/1181406/pexels-photo-1181406.jpeg",
       "https://images.pexels.com/photos/667838/pexels-photo-667838.jpeg",
       "https://images.pexels.com/photos/1648776/pexels-photo-1648776.jpeg"]),
     ("scandinavian",
      ["https://images.pexels.com/photos/1080696/pexels-photo-1080696.jpeg",
       "https://images.pexels.com/photos/667838/pexels-photo-667838.jpeg",
       "https://images.pexels.com/photos/1181406/pexels-photo-1181406.jpeg"]),
     ("industrial",
      ["https://images.pexels.com/photos/1329711/pexels-photo-1329711.jpeg",
       "https://images.pexels.com/photos/667838/pexels-photo-667838.jpeg",
       "https://images.pexels.com/photos/1080721/pexels-photo-1080721.jpeg"]),
     ("bohemian",
      ["https://images.pexels.com/photos/1457842/pexels-photo-1457842.jpeg",
       "https://images.pexels.com/photos/667838/pexels-photo-667838.jpeg",
       "https://images.pexels.com/photos/1181406/pexels-photo-1181406.jpeg"])]),
   ("dining",
    [("modern",
      ["https://images.pexels.com/photos/1395967/pexels-photo-1395967.jpeg",
       "https://images.pexels.com/photos/2062426/pexels-photo-2062426.jpeg",
       "https://images.pexels.com/photos/1080721/pexels-photo-1080721.jpeg"]),
     ("traditional",
      ["https://images.pexels.com/photos/1648776/pexels-photo-1648776.jpeg",
       "https://images.pexels.com/photos/1395967/pexels-photo-1395967.jpeg",
       "https://images.pexels.com/photos/1743229/pexels-photo-1743229.jpeg"]),
     ("scandinavian",
      ["https://images.pexels.com/photos/1571453/pexels-photo-1571453.jpeg",
       "https://images.pexels.com/photos/1395967/pexels-photo-1395967.jpeg",
       "https://images.pexels.com/photos/2062426/pexels-photo-2062426.jpeg"]),
     ("industrial",
      ["https://images.pexels.com/photos/1080721/pexels-photo-1080721.jpeg",
       "https://images.pexels.com/photos/1395967/pexels-photo-1395967.jpeg",
       "https://images.pexels.com/photos/1329711/pexels-photo-1329711.jpeg"]),
     ("bohemian",
      ["https://images.pexels.com/photos/1457842/pexels-photo-1457842.jpeg",
       "https://images.pexels.com/photos/1395967/pexels-photo-1395967.jpeg",
       "https://images.pexels.com/photos/1743229/pexels-photo-1743229.jpeg"])])]

/-- The fixed global default returned when the room type is not a key of the
curated table (line 472). -/
def defaultCuratedUrl : String :=
  "https://images.pexels.com/photos/1571460/pexels-photo-1571460.jpeg"

/-- Time-indexed selection images[int(time.time()) % len(images)] used by the
curated fallback (lines 465-470); the time is passed in explicitly. -/
def pick (l : List String) (t : Nat) : String :=
  l.getD (t % l.length) ""

/-- AIService._get_curated_image (lines 295-472).  `t` is int(time.time()).
Python's list(dict.values())[0] is the first inserted value, i.e. the head of
the association list. -/
def _get_curated_image (room_type style : String) (t : Nat) : String :=
  match lookupL room_type curated_images with
  | some styles =>
    match lookupL style styles with
    | some images => pick images t
    | none =>
      let fallback_images := (lookupL "modern" styles).getD (styles.headD ("", [])).2
      pick fallback_images t
  | none => defaultCuratedUrl

/-- The marker token on which AIService._parse_layout_response splits. -/
def MARKER : List Char := ['L', 'A', 'Y', 'O', 'U', 'T']

/-- Does the marker occur contiguously anywhere in the list. -/
def hasMarker : List Char → Bool
  | [] => false
  | c :: rest => isPrefixL MARKER (c :: rest) || hasMarker rest

/-- Fuel-indexed worker for Python str.split("LAYOUT"): scan left to right,
cut at each non-overlapping leftmost occurrence of the marker.  The fuel is
always at least the length of the list at every call site, so the fuel-0
fallback is unreachable; fuel keeps the recursion structural. -/
def splitGo : Nat → List Char → List (List Char)
  | _, [] => [[]]
  | 0, s => [s]
  | fuel + 1, c :: rest =>
    if isPrefixL MARKER (c :: rest) then
      [] :: splitGo fuel (rest.drop 5)
    else
      match splitGo fuel rest with
      | [] => [[c]]
      | h :: t => (c :: h) :: t

/-- Python response.split("LAYOUT"). -/
def splitMarker (s : List Char) : List (List Char) :=
  splitGo s.length s

/-- Everything after the first ':' when one exists. -/
def afterFirstColon : List Char → Option (List Char)
  | [] => none
  | c :: rest => if c = ':' then some rest else afterFirstColon rest

/-- Python s.split(":", 1)[-1]: the part after the first colon if a colon
exists, otherwise the whole string. -/
def splitColonLast (s : List Char) : List Char :=
  (afterFirstColon s).getD s

/-- AIService._parse_layout_response (lines 474-488): split the raw response on
"LAYOUT", drop the part before the first marker, strip each remaining part,
drop everything up to and including its first colon, strip again, keep the
non-empty results; if nothing survives and the raw response is non-blank,
return the whole stripped response as a single layout. -/
def parsePart (part : List Char) : Option (List Char) :=
  let layout_text := pyStrip part
  if layout_text.isEmpty then none
  else
    let layout_desc := pyStrip (splitColonLast layout_text)
    if layout_desc.isEmpty then none else some layout_desc

def parse_layout_response (response : List Char) : List (List Char) :=
  let parts := splitMarker response
  let layouts := (parts.drop 1).filterMap parsePart
  if layouts.isEmpty && !(pyStrip response).isEmpty then [pyStrip response]
  else layouts

/-- Hex digit character (uppercase) for percent-encoding. -/
def hexDigitChar (n : Nat) : Char :=
  if n < 10 then Char.ofNat (48 + n) else Char.ofNat (55 + n)

/-- UTF-8 bytes of one character, as the numbers 0..255. -/
def utf8BytesOfChar (c : Char) : List Nat :=
  let n := c.toNat
  if n < 128 then [n]
  else if n < 2048 then [192 + n / 64, 128 + n % 64]
  else if n < 65536 then [224 + n / 4096, 128 + (n / 64) % 64, 128 + n % 64]
  else [240 + n / 262144, 128 + (n / 4096) % 64, 128 + (n / 64) % 64, 128 + n % 64]

/-- urllib.parse.quote on one character with the default safe set "/": ASCII
letters, digits, '_', '.', '-', '~' and '/' pass through, everything else is
percent-encoded byte by byte. -/
def quoteChar (c : Char) : List Char :=
  if c.isAlpha || c.isDigit || c = '_' || c = '.' || c = '-' || c = '~' || c = '/' then [c]
  else (utf8BytesOfChar c).flatMap fun b => ['%', hexDigitChar (b / 16), hexDigitChar (b % 16)]

/-- urllib.parse.quote(s) with the default safe set. -/
def urlQuote (s : String) : String :=
  String.mk (s.data.flatMap quoteChar)

/-- The character used by base64 for digit n (0..63). -/
def b64Char (n : Nat) : Char :=
  if n < 26 then Char.ofNat (65 + n)
  else if n < 52 then Char.ofNat (97 + (n - 26))
  else if n < 62 then Char.ofNat (48 + (n - 52))
  else if n = 62 then '+' else '/'

/-- base64.b64encode on a byte list (bytes are numbers 0..255). -/
def base64Encode : List Nat → List Char
  | [] => []
  | [a] => [b64Char (a / 4), b64Char (a % 4 * 16), '=', '=']
  | [a, b] => [b64Char (a / 4), b64Char (a % 4 * 16 + b / 16), b64Char (b % 16 * 4), '=']
  | a :: b :: c :: rest =>
    b64Char (a / 4) :: b64Char (a % 4 * 16 + b / 16) ::
    b64Char (b % 16 * 4 + c / 64) :: b64Char (c % 64) :: base64Encode rest

/-- The state of class AIService after __init__ (lines 15-20): hf_api_key is
set to None and no method of the class ever assigns it again (line 18 is its
only assignment in src/ai_services.py). -/
structure AIService where
  provider : String
  api_key : String
  hf_api_key : Option String
  current_provider : String

/-- AIService.__init__(provider, api_key). -/
def AIService.init (provider api_key : String) : AIService :=
  { provider := provider
    api_key := api_key
    hf_api_key := none
    current_provider := provider }

/-- The URL AIService._generate_with_pollinations builds for a prompt
(lines 81-87). -/
def pollinationsUrl (description : String) (p : Preferences) : String :=
  "https://image.pollinations.ai/prompt/" ++
    urlQuote (_create_detailed_image_prompt description p) ++
    "?width=512&height=512&model=flux&enhance=true&nologo=true"

/-- AIService._generate_with_pollinations (lines 75-99).  The outcome of
requests.get is an oracle: none models a raised transport exception (caught by
the inner except, yielding None), some code models an HTTP status code; only
status 200 returns the URL. -/
def _generate_with_pollinations (description : String) (p : Preferences)
    (pollStatus : Option Nat) : Option String :=
  if pollStatus = some 200 then some (pollinationsUrl description p) else none

/-- One HTTP response of the Hugging Face inference API, as the source reads
it: status code, whether 'image' occurs in the content type, the body bytes,
and whether the body parses as JSON. -/
structure HFResp where
  status : Nat
  isImage : Bool
  content : List Nat
  jsonOk : Bool

/-- The per-model loop of AIService._generate_with_huggingface
(lines 117-167).  Each entry of the environment list is the outcome for one
model: none models an exception during the request (continue), some resp an
HTTP response.  A 200 response whose content type mentions image and whose
body exceeds 1000 bytes returns an inline base64 data reference; every other
outcome (JSON error, invalid format, 503/404, 429, any other status) continues
with the next model.  The second component counts the requests issued. -/
def hfLoop : List (Option HFResp) → Option String × Nat
  | [] => (none, 0)
  | none :: rest =>
    let r := hfLoop rest
    (r.1, r.2 + 1)
  | some resp :: rest =>
    if resp.status = 200 then
      if resp.isImage && decide (resp.content.length > 1000) then
        (some (String.mk ("data:image/png;base64,".data ++ base64Encode resp.content)), 1)
      else
        let r := hfLoop rest
        (r.1, r.2 + 1)
    else
      let r := hfLoop rest
      (r.1, r.2 + 1)

/-- AIService._generate_with_huggingface (lines 101-174): when no Hugging Face
API key is set, return None before issuing any request (lines 104-106);
otherwise try the three hard-coded models in order.  `env i` is the network
outcome for model i. -/
def _generate_with_huggingface (svc : AIService) (env : Nat → Option HFResp)
    (description : String) (p : Preferences) : Option String × Nat :=
  match svc.hf_api_key with
  | none => (none, 0)
  | some _ =>
    let _ := _create_detailed_image_prompt description p
    hfLoop [env 0, env 1, env 2]

/-- The network/time environment of one generate_layout_image call. -/
structure ImageEnv where
  pollStatus : Option Nat
  hf : Nat → Option HFResp
  time : Nat

/-- AIService.generate_layout_image (lines 52-73): try Pollinations, then
Hugging Face, then the curated fallback keyed by the normalized room type and
style.  Both remote helpers absorb their own exceptions and return None on
failure, and the mapping and table lookups are total, so the outer except
branch (lines 69-73, which resolves the same curated expression) is
unreachable for a fully-populated preferences record; the function always
returns some string. -/
def generate_layout_image (svc : AIService) (env : ImageEnv)
    (description : String) (p : Preferences) : Option String :=
  match _generate_with_pollinations description p env.pollStatus with
  | some image_url => some image_url
  | none =>
    match (_generate_with_huggingface svc env.hf description p).1 with
    | some image_url => some image_url
    | none =>
      some (_get_curated_image (_map_room_type p.room_type) (_map_style p.style) env.time)

/-- AIService.generate_layout_descriptions (lines 36-50).  The provider call
(self._generate_with_gemini / _generate_with_openai, which re-raise their
errors) is an oracle: ok response models a returned text, error e a raised
exception.  On success the parsed layouts are truncated to the first one
(line 46); on any exception the except branch shows
st.error(f"Error generating layouts: ...") and returns [] (lines 48-50).
The second component is the message surfaced to the user via st.error. -/
def generate_layout_descriptions (gen : Except String String)
    (p : Preferences) : List (List Char) × Option String :=
  let _prompt := _create_layout_prompt p
  match gen with
  | Except.ok response => ((parse_layout_response response.data).take 1, none)
  | Except.error e => ([], some ("Error generating layouts: " ++ e))

theorem lookupL_mem {α : Type} {k : String} {v : α} :
    ∀ {l : List (String × α)}, lookupL k l = some v → (k, v) ∈ l := by
  intro l
  induction l with
  | nil => intro h; simp [lookupL] at h
  | cons kv rest ih =>
    intro h
    obtain ⟨k', v'⟩ := kv
    by_cases hk : k = k'
    · subst hk
      simp [lookupL] at h
      simp [h]
    · simp only [lookupL, if_neg hk] at h
      exact List.mem_cons_of_mem _ (ih h)

theorem lookupL_eq_none {α : Type} {k : String} :
    ∀ {l : List (String × α)}, k ∉ l.map Prod.fst → lookupL k l = none := by
  intro l
  induction l with
  | nil => intro _; rfl
  | cons kv rest ih =>
    intro h
    obtain ⟨k', v'⟩ := kv
    simp only [List.map_cons, List.mem_cons] at h
    push_neg at h
    simp [lookupL, h.1, ih h.2]

theorem getD_mem : ∀ (l : List String) (n : Nat), n < l.length → l.getD n "" ∈ l
  | [], n, h => absurd h (by simp)
  | x :: _, 0, _ => by simp [List.getD]
  | _ :: xs, n + 1, h => by
    simp only [List.getD_cons_succ]
    exact List.mem_cons_of_mem _ (getD_mem xs n (by simpa using h))

theorem pick_mem {l : List String} (t : Nat) (h : l ≠ []) : pick l t ∈ l :=
  getD_mem l (t % l.length) (Nat.mod_lt t (List.length_pos.mpr h))

theorem headD_mem {α : Type} {l : List α} (d : α) (h : l ≠ []) : l.headD d ∈ l := by
  cases l with
  | nil => exact absurd rfl h
  | cons x xs => simp [List.headD]

theorem filterMap_eq_map_of_all_some {α β : Type} (f : α → Option β) (g : α → β) :
    ∀ (l : List α), (∀ x ∈ l, f x = some (g x)) → l.filterMap f = l.map g := by
  intro l
  induction l with
  | nil => intro _; rfl
  | cons x xs ih =>
    intro h
    rw [List.filterMap_cons, h x (by simp), List.map_cons,
      ih fun y hy => h y (by simp [hy])]

/-- C3: the room-type and style normalization maps are total pure functions:
every input string maps into the canonical sets
{living, bedroom, kitchen, bathroom, office, dining} and
{modern, traditional, scandinavian, industrial, bohemian}, and every string
outside the fixed lookup keys maps to "living" and "modern" respectively. -/
theorem normalization_maps_total (r s : String) :
    _map_room_type r ∈ ["living", "bedroom", "kitchen", "bathroom", "office", "dining"]
    ∧ _map_style s ∈ ["modern", "traditional", "scandinavian", "industrial", "bohemian"]
    ∧ (r ∉ roomMapping.map Prod.fst → _map_room_type r = "living")
    ∧ (s ∉ styleMapping.map Prod.fst → _map_style s = "modern") := by
  refine ⟨?_, ?_, ?_, ?_⟩
  · cases h : lookupL r roomMapping with
    | none => simp only [_map_room_type, h, Option.getD_none]; decide
    | some v =>
      have hv : v ∈ roomMapping.map Prod.snd :=
        List.mem_map_of_mem Prod.snd (lookupL_mem h)
      have hall : ∀ x ∈ roomMapping.map Prod.snd,
          x ∈ ["living", "bedroom", "kitchen", "bathroom", "office", "dining"] := by decide
      simpa [_map_room_type, h] using hall v hv
  · cases h : lookupL s styleMapping with
    | none => simp only [_map_style, h, Option.getD_none]; decide
    | some v =>
      have hv : v ∈ styleMapping.map Prod.snd :=
        List.mem_map_of_mem Prod.snd (lookupL_mem h)
      have hall : ∀ x ∈ styleMapping.map Prod.snd,
          x ∈ ["modern", "traditional", "scandinavian", "industrial", "bohemian"] := by decide
      simpa [_map_style, h] using hall v hv
  · intro hr; simp [_map_room_type, lookupL_eq_none hr]
  · intro hs; simp [_map_style, lookupL_eq_none hs]

/-- Witness for C3, instantiated at the unmapped inputs "garage" and
"gothic", which default to "living" and "modern". -/
theorem normalization_maps_total_witness :
    _map_room_type "garage" = "living" ∧ _map_style "gothic" = "modern" :=
  ⟨(normalization_maps_total "garage" "gothic").2.2.1 (by decide),
   (normalization_maps_total "garage" "gothic").2.2.2 (by decide)⟩

theorem curated_table_wf :
    ∀ p ∈ curated_images, p.2 ≠ []
      ∧ (lookupL "modern" p.2).isSome = true
      ∧ ∀ q ∈ p.2, q.2 ≠ [] ∧ ∀ u ∈ q.2, u.data ≠ [] := by decide

def collectStyles : List (String × List String) → List String
  | [] => []
  | q :: rest => q.2 ++ collectStyles rest

def collectUrls : List (String × List (String × List String)) → List String
  | [] => []
  | p :: rest => collectStyles p.2 ++ collectUrls rest

/-- Every image URL occurring anywhere in the curated table. -/
def allCuratedUrls : List String := collectUrls curated_images

theorem mem_collectStyles {styles : List (String × List String)} {st : String}
    {imgs : List String} (hq : (st, imgs) ∈ styles) {u : String} (hu : u ∈ imgs) :
    u ∈ collectStyles styles := by
  induction styles with
  | nil => exact absurd hq (by simp)
  | cons q rest ih =>
    rw [List.mem_cons] at hq
    rcases hq with rfl | hq
    · exact List.mem_append_left _ hu
    · exact List.mem_append_right _ (ih hq)

theorem mem_collectUrls {table : List (String × List (String × List String))}
    {rm : String} {styles : List (String × List String)} (hp : (rm, styles) ∈ table)
    {st : String} {imgs : List String} (hq : (st, imgs) ∈ styles)
    {u : String} (hu : u ∈ imgs) : u ∈ collectUrls table := by
  induction table with
  | nil => exact absurd hp (by simp)
  | cons p rest ih =>
    rw [List.mem_cons] at hp
    rcases hp with rfl | hp
    · exact List.mem_append_left _ (mem_collectStyles hq hu)
    · exact List.mem_append_right _ (ih hp)

/-- The curated fallback always lands on a table URL or the global default. -/
theorem get_curated_mem_or_default (room style : String) (t : Nat) :
    _get_curated_image room style t ∈ allCuratedUrls
    ∨ _get_curated_image room style t = defaultCuratedUrl := by
  have hwf := curated_table_wf
  cases hroom : lookupL room curated_images with
  | none =>
    right
    unfold _get_curated_image
    rw [hroom]
  | some styles =>
    left
    have hmem : (room, styles) ∈ curated_images := lookupL_mem hroom
    cases hstyle : lookupL style styles with
    | some imgs =>
      have hne : imgs ≠ [] := ((hwf _ hmem).2.2 _ (lookupL_mem hstyle)).1
      unfold _get_curated_image
      simp only [hroom, hstyle]
      exact mem_collectUrls hmem (lookupL_mem hstyle) (pick_mem t hne)
    | none =>
      cases hmod : lookupL "modern" styles with
      | some imgs =>
        have hne : imgs ≠ [] := ((hwf _ hmem).2.2 _ (lookupL_mem hmod)).1
        unfold _get_curated_image
        simp only [hroom, hstyle, hmod, Option.getD_some]
        exact mem_collectUrls hmem (lookupL_mem hmod) (pick_mem t hne)
      | none =>
        exact absurd (hwf _ hmem).2.1 (by simp [hmod])

/-- C4: the curated fallback resolves in order: (room, style) both keys of the
table gives one of that pair's listed URLs; room a key with style absent gives
one of the room's "modern" entries (the failing-that clause of the claim is
vacuous because every room of the table has a "modern" entry); room absent
gives the fixed global default.  The result is always one of the table's URLs
or the global default. -/
theorem curated_fallback_resolution (room style : String) (t : Nat) :
    (∀ styles, lookupL room curated_images = some styles →
      (∀ imgs, lookupL style styles = some imgs →
        _get_curated_image room style t ∈ imgs)
      ∧ (lookupL style styles = none →
        ∀ imgs, lookupL "modern" styles = some imgs →
          _get_curated_image room style t ∈ imgs)
      ∧ (lookupL style styles = none → lookupL "modern" styles = none →
        ∃ sk imgs, (sk, imgs) ∈ styles ∧ _get_curated_image room style t ∈ imgs))
    ∧ (lookupL room curated_images = none →
      _get_curated_image room style t = defaultCuratedUrl)
    ∧ (_get_curated_image room style t ∈ allCuratedUrls
      ∨ _get_curated_image room style t = defaultCuratedUrl) := by
  have hwf := curated_table_wf
  refine ⟨?_, ?_, ?_⟩
  · intro styles hroom
    have hmem : (room, styles) ∈ curated_images := lookupL_mem hroom
    refine ⟨?_, ?_, ?_⟩
    · intro imgs hstyle
      have hne : imgs ≠ [] := ((hwf _ hmem).2.2 _ (lookupL_mem hstyle)).1
      unfold _get_curated_image
      simp only [hroom, hstyle]
      exact pick_mem t hne
    · intro hstyle imgs hmod
      have hne : imgs ≠ [] := ((hwf _ hmem).2.2 _ (lookupL_mem hmod)).1
      unfold _get_curated_image
      simp only [hroom, hstyle, hmod, Option.getD_some]
      exact pick_mem t hne
    · intro _ hmod
      exact absurd (hwf _ hmem).2.1 (by simp [hmod])
  · intro hroom
    unfold _get_curated_image
    rw [hroom]
  · exact get_curated_mem_or_default room style t

/-- Witness for C4: at ("garage", "modern") the room is not a table key and
the global default is returned; at ("bedroom", "modern", t = 5) the result is
one of the three listed bedroom/modern URLs. -/
theorem curated_fallback_resolution_witness :
    _get_curated_image "garage" "modern" 5 = defaultCuratedUrl
    ∧ _get_curated_image "bedroom" "modern" 5
      ∈ ["https://images.pexels.com/photos/164595/pexels-photo-164595.jpeg",
         "https://images.pexels.com/photos/1454806/pexels-photo-1454806.jpeg",
         "https://images.pexels.com/photos/1080696/pexels-photo-1080696.jpeg"] :=
  ⟨(curated_fallback_resolution "garage" "modern" 5).2.1 (by decide),
   ((curated_fallback_resolution "bedroom" "modern" 5).1
      [("modern",
        ["https://images.pexels.com/photos/164595/pexels-photo-164595.jpeg",
         "https://images.pexels.com/photos/1454806/pexels-photo-1454806.jpeg",
         "https://images.pexels.com/photos/1080696/pexels-photo-1080696.jpeg"]),
       ("traditional",
        ["https://images.pexels.com/photos/1743229/pexels-photo-1743229.jpeg",
         "https://images.pexels.com/photos/1648776/pexels-photo-1648776.jpeg",
         "https://images.pexels.com/photos/164595/pexels-photo-164595.jpeg"]),
       ("scandinavian",
        ["https://images.pexels.com/photos/1454806/pexels-photo-1454806.jpeg",
         "https://images.pexels.com/photos/1080696/pexels-photo-1080696.jpeg",
         "https://images.pexels.com/photos/164595/pexels-photo-164595.jpeg"]),
       ("industrial",
        ["https://images.pexels.com/photos/1329711/pexels-photo-1329711.jpeg",
         "https://images.pexels.com/photos/1080696/pexels-photo-1080696.jpeg",
         "https://images.pexels.com/photos/164595/pexels-photo-164595.jpeg"]),
       ("bohemian",
        ["https://images.pexels.com/photos/1080696/pexels-photo-1080696.jpeg",
         "https://images.pexels.com/photos/1457842/pexels-photo-1457842.jpeg",
         "https://images.pexels.com/photos/1743229/pexels-photo-1743229.jpeg"])]
      (by decide)).1
    ["https://images.pexels.com/photos/164595/pexels-photo-164595.jpeg",
     "https://images.pexels.com/photos/1454806/pexels-photo-1454806.jpeg",
     "https://images.pexels.com/photos/1080696/pexels-photo-1080696.jpeg"]
    (by decide)⟩

theorem isPrefixL_marker_append (x : List Char) : isPrefixL MARKER (MARKER ++ x) = true :=
  (isPrefixL_iff MARKER (MARKER ++ x)).mpr ⟨x, rfl⟩

theorem hasMarker_of_isPrefixL : ∀ {s : List Char},
    isPrefixL MARKER s = true → hasMarker s = true
  | [], h => absurd h (by decide)
  | _ :: _, h => by simp [hasMarker, h]

/-- The marker "LAYOUT" has no nonempty proper border: no nonempty proper
prefix of it is also a suffix.  This is what makes leftmost splitting on it
insensitive to marker-free text placed right in front of an occurrence. -/
theorem marker_border_free : ∀ k, k < 6 → 0 < k → MARKER.take (6 - k) ≠ MARKER.drop k := by
  decide

theorem marker_length : MARKER.length = 6 := by decide

/-- No occurrence of the marker can start inside a marker-free nonempty block
that is directly followed by the marker. -/
theorem marker_not_prefix_mid (p rest : List Char) (hne : p ≠ [])
    (hclean : hasMarker p = false) :
    isPrefixL MARKER (p ++ MARKER ++ rest) = false := by
  by_contra hcon
  rw [Bool.not_eq_false] at hcon
  obtain ⟨t, ht⟩ := (isPrefixL_iff _ _).mp hcon
  by_cases hlen : 6 ≤ p.length
  · have h1 : (p ++ MARKER ++ rest).take 6 = p.take 6 := by
      rw [List.append_assoc]
      exact List.take_append_of_le_length hlen
    have h2 : (MARKER ++ t).take 6 = MARKER := by
      have h : (MARKER ++ t).take 6 = MARKER.take 6 :=
        List.take_append_of_le_length (Nat.le_of_eq marker_length.symm)
      rw [h, ← marker_length, List.take_length]
    have h3 : p.take 6 = MARKER := by rw [← h1, ht, h2]
    have hpre : isPrefixL MARKER p = true := by
      refine (isPrefixL_iff _ _).mpr ⟨p.drop 6, ?_⟩
      rw [← h3]
      exact (List.take_append_drop 6 p).symm
    have := hasMarker_of_isPrefixL hpre
    simp [hclean] at this
  · rw [Nat.not_le] at hlen
    have hpos : 0 < p.length := List.length_pos.mpr hne
    have h1 : (p ++ MARKER ++ rest).take p.length = p := by
      rw [List.append_assoc]
      exact List.take_left p _
    have h2 : (MARKER ++ t).take p.length = MARKER.take p.length :=
      List.take_append_of_le_length (by rw [marker_length]; omega)
    have h3 : (p ++ MARKER ++ rest).drop p.length = MARKER ++ rest := by
      rw [List.append_assoc]
      exact List.drop_left p _
    have h4 : (MARKER ++ t).drop p.length = MARKER.drop p.length ++ t :=
      List.drop_append_of_le_length (by rw [marker_length]; omega)
    have e2 : MARKER ++ rest = MARKER.drop p.length ++ t := by rw [← h3, ht, h4]
    have h5 : (MARKER ++ rest).take (6 - p.length) = MARKER.take (6 - p.length) :=
      List.take_append_of_le_length (by rw [marker_length]; omega)
    have h6 : (MARKER.drop p.length ++ t).take (6 - p.length) = MARKER.drop p.length := by
      have hdl : (MARKER.drop p.length).length = 6 - p.length := by
        rw [List.length_drop, marker_length]
      rw [← hdl]
      exact List.take_left _ t
    have : MARKER.take (6 - p.length) = MARKER.drop p.length := by
      rw [← h5, e2, h6]
    exact marker_border_free p.length hlen hpos this

/-- The fuel argument of splitGo does not matter once it reaches the length of
the list. -/
theorem splitGo_fuel : ∀ (f1 : Nat) (s : List Char) (f2 : Nat),
    s.length ≤ f1 → s.length ≤ f2 → splitGo f1 s = splitGo f2 s := by
  intro f1
  induction f1 with
  | zero =>
    intro s f2 h1 _
    have hs : s = [] := List.length_eq_zero.mp (Nat.le_zero.mp h1)
    subst hs
    simp [splitGo]
  | succ f ih =>
    intro s f2 h1 h2
    cases s with
    | nil => simp [splitGo]
    | cons c rest =>
      cases f2 with
      | zero => exact absurd h2 (by simp)
      | succ g =>
        have hr1 : rest.length ≤ f := Nat.succ_le_succ_iff.mp (by simpa using h1)
        have hr2 : rest.length ≤ g := Nat.succ_le_succ_iff.mp (by simpa using h2)
        have hd1 : (rest.drop 5).length ≤ f := by
          rw [List.length_drop]; omega
        have hd2 : (rest.drop 5).length ≤ g := by
          rw [List.length_drop]; omega
        simp only [splitGo]
        by_cases hpre : isPrefixL MARKER (c :: rest) = true
        · simp only [hpre, if_true]
          rw [ih (rest.drop 5) g hd1 hd2]
        · rw [Bool.not_eq_true] at hpre
          simp only [hpre, Bool.false_eq_true, if_false]
          rw [ih rest g hr1 hr2]

/-- Splitting marker-free text yields the single chunk consisting of the whole
text. -/
theorem splitGo_no_marker : ∀ (fuel : Nat) (s : List Char), s.length ≤ fuel →
    hasMarker s = false → splitGo fuel s = [s] := by
  intro fuel
  induction fuel with
  | zero =>
    intro s hs _
    have h : s = [] := List.length_eq_zero.mp (Nat.le_zero.mp hs)
    subst h
    rfl
  | succ f ih =>
    intro s hs hclean
    cases s with
    | nil => rfl
    | cons c rest =>
      have hor : isPrefixL MARKER (c :: rest) = false ∧ hasMarker rest = false := by
        simpa [hasMarker] using hclean
      simp only [splitGo, hor.1, Bool.false_eq_true, if_false]
      rw [ih rest (Nat.succ_le_succ_iff.mp (by simpa using hs)) hor.2]

theorem splitMarker_no_marker (s : List Char) (h : hasMarker s = false) :
    splitMarker s = [s] :=
  splitGo_no_marker s.length s (Nat.le_refl _) h

theorem splitGo_succ_cons_pos (fuel : Nat) (c : Char) (rest : List Char)
    (h : isPrefixL MARKER (c :: rest) = true) :
    splitGo (fuel + 1) (c :: rest) = [] :: splitGo fuel (rest.drop 5) := by
  simp [splitGo, h]

theorem splitGo_succ_cons_neg (fuel : Nat) (c : Char) (rest : List Char)
    (h : isPrefixL MARKER (c :: rest) = false) :
    splitGo (fuel + 1) (c :: rest) =
      match splitGo fuel rest with
      | [] => [[c]]
      | l :: t => (c :: l) :: t := by
  simp [splitGo, h]

/-- One splitting step at an occurrence of the marker. -/
theorem splitGo_cons_marker (fuel : Nat) (x : List Char) (hx : x.length ≤ fuel) :
    splitGo (fuel + 6) (MARKER ++ x) = [] :: splitGo fuel x := by
  have hc : isPrefixL MARKER (MARKER ++ x) = true := isPrefixL_marker_append x
  have h1 : splitGo (fuel + 5 + 1) ('L' :: (['A', 'Y', 'O', 'U', 'T'] ++ x))
      = [] :: splitGo (fuel + 5) ((['A', 'Y', 'O', 'U', 'T'] ++ x).drop 5) :=
    splitGo_succ_cons_pos (fuel + 5) 'L' (['A', 'Y', 'O', 'U', 'T'] ++ x) hc
  have h2 : (['A', 'Y', 'O', 'U', 'T'] ++ x).drop 5 = x := by simp
  rw [show splitGo (fuel + 6) (MARKER ++ x)
      = splitGo (fuel + 5 + 1) ('L' :: (['A', 'Y', 'O', 'U', 'T'] ++ x)) from rfl,
    h1, h2, splitGo_fuel (fuel + 5) x fuel (by omega) hx]

/-- Leftmost splitting passes over a marker-free block and cuts exactly at the
following marker occurrence. -/
theorem splitMarker_clean_append : ∀ (pre : List Char), hasMarker pre = false →
    ∀ (x : List Char), splitMarker (pre ++ MARKER ++ x) = pre :: splitMarker x := by
  intro pre
  induction pre with
  | nil =>
    intro _ x
    have hlen : (MARKER ++ x).length = x.length + 6 := by
      rw [List.length_append, marker_length]; omega
    calc splitMarker ([] ++ MARKER ++ x)
        = splitGo (x.length + 6) (MARKER ++ x) := by
          rw [List.nil_append]; unfold splitMarker; rw [hlen]
      _ = [] :: splitGo x.length x := splitGo_cons_marker x.length x (Nat.le_refl _)
      _ = [] :: splitMarker x := rfl
  | cons c pre ih =>
    intro hclean x
    have hparts : isPrefixL MARKER (c :: pre) = false ∧ hasMarker pre = false := by
      simpa [hasMarker] using hclean
    have hnp : isPrefixL MARKER (c :: (pre ++ MARKER ++ x)) = false := by
      have h := marker_not_prefix_mid (c :: pre) x (by simp) hclean
      simpa [List.append_assoc] using h
    have hform : (c :: pre) ++ MARKER ++ x = c :: (pre ++ MARKER ++ x) := by simp
    have hfix : splitMarker ((c :: pre) ++ MARKER ++ x)
        = splitGo ((pre ++ MARKER ++ x).length + 1) (c :: (pre ++ MARKER ++ x)) := by
      unfold splitMarker
      rw [hform]
      congr 1
    rw [hfix, splitGo_succ_cons_neg (pre ++ MARKER ++ x).length c (pre ++ MARKER ++ x) hnp,
      show splitGo (pre ++ MARKER ++ x).length (pre ++ MARKER ++ x)
        = pre :: splitMarker x from ih hparts.2 x]

/-- Concatenation of marker-prefixed segments. -/
def joinM : List (List Char) → List Char
  | [] => []
  | s :: rest => MARKER ++ s ++ joinM rest

/-- Characterization of Python split("LAYOUT") on text assembled from a
marker-free preamble and marker-free segments each preceded by one marker
occurrence. -/
theorem splitMarker_interleave : ∀ (segs : List (List Char)) (pre : List Char),
    hasMarker pre = false → (∀ s ∈ segs, hasMarker s = false) →
    splitMarker (pre ++ joinM segs) = pre :: segs := by
  intro segs
  induction segs with
  | nil =>
    intro pre hpre _
    simp only [joinM, List.append_nil]
    exact splitMarker_no_marker pre hpre
  | cons s rest ih =>
    intro pre hpre hsegs
    have h1 : pre ++ joinM (s :: rest) = pre ++ MARKER ++ (s ++ joinM rest) := by
      simp [joinM, List.append_assoc]
    rw [h1, splitMarker_clean_append pre hpre (s ++ joinM rest),
      ih s (hsegs s (by simp)) fun y hy => hsegs y (by simp [hy])]

/-- The value the parser produces for one raw segment: strip, cut everything up
to and including the first colon, strip again. -/
def segOutput (s : List Char) : List Char :=
  pyStrip (splitColonLast (pyStrip s))

/-- A segment that is "followed by a colon and a non-empty body": once
stripped it contains a colon and the text after its first colon is
non-blank. -/
def colonGoodB (s : List Char) : Bool :=
  match afterFirstColon (pyStrip s) with
  | none => false
  | some b => !(pyStrip b).isEmpty

theorem isEmpty_false_of_ne {α : Type} {l : List α} (h : l ≠ []) :
    l.isEmpty = false := by
  cases l with
  | nil => exact absurd rfl h
  | cons a t => rfl

theorem parsePart_of_colonGood {s : List Char} (hg : colonGoodB s = true) :
    parsePart s = some (segOutput s) := by
  unfold colonGoodB at hg
  unfold parsePart segOutput
  cases hb : afterFirstColon (pyStrip s) with
  | none => rw [hb] at hg; exact absurd hg (by simp)
  | some b =>
    rw [hb] at hg
    have hbne : (pyStrip b).isEmpty = false := by simpa using hg
    have hsne : (pyStrip s).isEmpty = false := by
      cases hs : pyStrip s with
      | nil => rw [hs] at hb; exact absurd hb (by simp [afterFirstColon])
      | cons c r => rfl
    have hcol : splitColonLast (pyStrip s) = b := by simp [splitColonLast, hb]
    simp [hsne, hcol, hbne]

/-- C2: for raw text made of a marker-free preamble followed by N occurrences
of "LAYOUT", each followed by a marker-free segment containing a colon whose
body is non-blank, the parser returns exactly N results, in order of
appearance, each trimmed of surrounding whitespace and stripped of everything
up to and including its first colon. -/
theorem parse_layout_response_marked (pre : List Char) (segs : List (List Char))
    (hpre : hasMarker pre = false)
    (hsegs : ∀ s ∈ segs, hasMarker s = false ∧ colonGoodB s = true)
    (hne : segs ≠ []) :
    parse_layout_response (pre ++ joinM segs) = segs.map segOutput
    ∧ (parse_layout_response (pre ++ joinM segs)).length = segs.length := by
  have hsplit := splitMarker_interleave segs pre hpre fun s hs => (hsegs s hs).1
  have hmain : parse_layout_response (pre ++ joinM segs) = segs.map segOutput := by
    unfold parse_layout_response
    rw [hsplit]
    simp only [List.drop_succ_cons, List.drop_zero]
    rw [filterMap_eq_map_of_all_some parsePart segOutput segs
      fun s hs => parsePart_of_colonGood (hsegs s hs).2]
    have hmapne : (segs.map segOutput).isEmpty = false :=
      isEmpty_false_of_ne (by simpa using hne)
    simp [hmapne]
  exact ⟨hmain, by rw [hmain, List.length_map]⟩

/-- Witness for C2 on the spec scenario: "LAYOUT 1:\nFoo\nLAYOUT 2:\nBar"
parses to exactly ["Foo", "Bar"]. -/
theorem parse_layout_response_marked_witness :
    parse_layout_response ("LAYOUT 1:\nFoo\nLAYOUT 2:\nBar".data)
      = ["Foo".data, "Bar".data] := by
  have h := (parse_layout_response_marked [] [" 1:\nFoo\n".data, " 2:\nBar".data]
    (by decide) (by decide) (by decide)).1
  have harg : "LAYOUT 1:\nFoo\nLAYOUT 2:\nBar".data
      = [] ++ joinM [" 1:\nFoo\n".data, " 2:\nBar".data] := by decide
  rw [harg, h]
  decide

/-- C5: the parser maps the empty string to the empty sequence, any non-blank
marker-free text to the single-element sequence holding the trimmed input, and
never returns the empty sequence on non-blank input. -/
theorem parse_layout_response_degenerate (s : List Char) :
    parse_layout_response [] = []
    ∧ (hasMarker s = false → pyStrip s ≠ [] → parse_layout_response s = [pyStrip s])
    ∧ (pyStrip s ≠ [] → parse_layout_response s ≠ []) := by
  refine ⟨rfl, ?_, ?_⟩
  · intro hm hs
    unfold parse_layout_response
    rw [splitMarker_no_marker s hm]
    simp [isEmpty_false_of_ne hs]
  · intro hs
    have hstrip : (pyStrip s).isEmpty = false := isEmpty_false_of_ne hs
    unfold parse_layout_response
    simp only [hstrip, Bool.not_false, Bool.and_true]
    cases hL : ((splitMarker s).drop 1).filterMap parsePart with
    | nil => simp
    | cons a t => simp

/-- Witness for C5 at the non-blank marker-free input "no markers here". -/
theorem parse_layout_response_degenerate_witness :
    parse_layout_response ("no markers here".data) = ["no markers here".data]
    ∧ parse_layout_response ("no markers here".data) ≠ [] := by
  constructor
  · have h := (parse_layout_response_degenerate ("no markers here".data)).2.1
      (by decide) (by decide)
    rw [h]
    decide
  · exact (parse_layout_response_degenerate ("no markers here".data)).2.2 (by decide)

theorem pollinations_some {description : String} {p : Preferences}
    {st : Option Nat} {u : String}
    (h : _generate_with_pollinations description p st = some u) :
    u = pollinationsUrl description p := by
  unfold _generate_with_pollinations at h
  by_cases hs : st = some 200
  · rw [if_pos hs] at h
    have h2 : pollinationsUrl description p = u := by simpa using h
    exact h2.symm
  · rw [if_neg hs] at h
    exact absurd h (by simp)

theorem pollinationsUrl_ne (description : String) (p : Preferences) :
    (pollinationsUrl description p).data ≠ [] := by
  unfold pollinationsUrl
  intro h
  rw [strData_append, strData_append] at h
  simp only [List.append_eq_nil] at h
  exact absurd h.1.1 (by decide)

theorem hfLoop_some_ne : ∀ (l : List (Option HFResp)) {s : String},
    (hfLoop l).1 = some s → s.data ≠ [] := by
  intro l
  induction l with
  | nil => intro s h; exact absurd h (by simp [hfLoop])
  | cons o rest ih =>
    intro s h
    cases o with
    | none =>
      simp only [hfLoop] at h
      exact ih h
    | some resp =>
      simp only [hfLoop] at h
      by_cases h200 : resp.status = 200
      · rw [if_pos h200] at h
        by_cases him : (resp.isImage && decide (resp.content.length > 1000)) = true
        · rw [if_pos him] at h
          simp only at h
          have hs : String.mk ("data:image/png;base64,".data
              ++ base64Encode resp.content) = s := by simpa using h
          intro hnil
          rw [← hs] at hnil
          simp only [List.append_eq_nil] at hnil
          exact absurd hnil.1 (by decide)
        · rw [if_neg him] at h
          exact ih (by simpa using h)
      · rw [if_neg h200] at h
        exact ih (by simpa using h)

theorem curated_image_ne (room style : String) (t : Nat) :
    (_get_curated_image room style t).data ≠ [] := by
  rcases get_curated_mem_or_default room style t with h | h
  · have hall : ∀ u ∈ allCuratedUrls, u.data ≠ [] := by decide
    exact hall _ h
  · rw [h]; decide

/-- C1: for every service state, network environment, description string and
fully-populated preferences record, the image resolution cascade returns some
non-empty string reference (the model is total, so no exception reaches the
caller, and no branch returns None), and whenever both remote strategies fail
it terminates in the curated fallback. -/
theorem image_cascade_total (svc : AIService) (env : ImageEnv)
    (description : String) (p : Preferences) :
    (∃ s, generate_layout_image svc env description p = some s ∧ s ≠ "")
    ∧ (env.pollStatus ≠ some 200 →
        (_generate_with_huggingface svc env.hf description p).1 = none →
        generate_layout_image svc env description p
          = some (_get_curated_image (_map_room_type p.room_type)
              (_map_style p.style) env.time)) := by
  constructor
  · have hexists : ∃ s, generate_layout_image svc env description p = some s
        ∧ s.data ≠ [] := by
      unfold generate_layout_image
      cases hp : _generate_with_pollinations description p env.pollStatus with
      | some u =>
        exact ⟨u, rfl, by rw [pollinations_some hp]; exact pollinationsUrl_ne description p⟩
      | none =>
        cases hh : (_generate_with_huggingface svc env.hf description p).1 with
        | some u =>
          refine ⟨u, rfl, ?_⟩
          unfold _generate_with_huggingface at hh
          cases hk : svc.hf_api_key with
          | none => rw [hk] at hh; exact absurd hh (by simp)
          | some k =>
            rw [hk] at hh
            exact hfLoop_some_ne _ hh
        | none =>
          exact ⟨_, rfl, curated_image_ne _ _ _⟩
    obtain ⟨s, h1, h2⟩ := hexists
    exact ⟨s, h1, ne_empty_of_data_ne h2⟩
  · intro hpoll hhf
    have hp : _generate_with_pollinations description p env.pollStatus = none := by
      unfold _generate_with_pollinations
      rw [if_neg hpoll]
    unfold generate_layout_image
    rw [hp, hhf]

/-- Witness for C1: Pollinations fails with status 500, no Hugging Face key is
configured, and the cascade resolves to the first curated bedroom/modern
image. -/
theorem image_cascade_total_witness :
    generate_layout_image (AIService.init "gemini" "k")
      ⟨some 500, fun _ => none, 0⟩ "desc"
      ⟨"Bedroom", "Modern", "b", "s", some ["White"], some [], some ""⟩
      = some "https://images.pexels.com/photos/164595/pexels-photo-164595.jpeg" := by
  have h := (image_cascade_total (AIService.init "gemini" "k")
    ⟨some 500, fun _ => none, 0⟩ "desc"
    ⟨"Bedroom", "Modern", "b", "s", some ["White"], some [], some ""⟩).2
    (by decide) rfl
  rw [h]
  decide

/-- C6: when the text-generation provider call raises, the layout generator
returns the empty list rather than propagating the exception or returning
partial output, and a reason string is surfaced to the user via st.error. -/
theorem generation_failure_yields_empty (p : Preferences) (e : String) :
    (generate_layout_descriptions (Except.error e) p).1 = []
    ∧ (generate_layout_descriptions (Except.error e) p).2
        = some ("Error generating layouts: " ++ e) :=
  ⟨rfl, rfl⟩

/-- C9: __init__ sets hf_api_key to None and nothing ever reassigns it, so the
Hugging Face strategy returns None after zero requests, and the cascade on a
freshly constructed service is Pollinations followed directly by the curated
fallback. -/
theorem hf_strategy_inert (prov key description : String) (p : Preferences)
    (env : ImageEnv) :
    (AIService.init prov key).hf_api_key = none
    ∧ _generate_with_huggingface (AIService.init prov key) env.hf description p
        = (none, 0)
    ∧ generate_layout_image (AIService.init prov key) env description p
        = some ((_generate_with_pollinations description p env.pollStatus).getD
            (_get_curated_image (_map_room_type p.room_type) (_map_style p.style)
              env.time)) := by
  refine ⟨rfl, rfl, ?_⟩
  unfold generate_layout_image
  cases hp : _generate_with_pollinations description p env.pollStatus with
  | some u => simp [hp]
  | none => simp [hp, _generate_with_huggingface, AIService.init]

/-- C10: the layout generator returns at most one description: the parsed
layouts are truncated with [:1] (line 46), and the failure branch returns
none at all. -/
theorem generation_truncated_to_one (p : Preferences) (gen : Except String String) :
    (generate_layout_descriptions gen p).1.length ≤ 1
    ∧ ∀ r : String, (generate_layout_descriptions (Except.ok r) p).1
        = (parse_layout_response r.data).take 1 := by
  constructor
  · cases gen with
    | error e => simp [generate_layout_descriptions]
    | ok r =>
      simp only [generate_layout_descriptions]
      rw [List.length_take]
      exact Nat.min_le_left _ _
  · intro r
    rfl

theorem not_mem_append {c : Char} {a b : List Char} (ha : c ∉ a) (hb : c ∉ b) :
    c ∉ a ++ b := by simp [List.mem_append, ha, hb]

theorem brace_not_strAppend {a b : String} (ha : '\x7b' ∉ a.data)
    (hb : '\x7b' ∉ b.data) : '\x7b' ∉ (a ++ b).data := by
  rw [strData_append]
  exact not_mem_append ha hb

theorem brace_not_mem_joinComma : ∀ {l : List String},
    (∀ x ∈ l, '\x7b' ∉ x.data) → '\x7b' ∉ (joinComma l).data := by
  intro l
  induction l with
  | nil => intro _; decide
  | cons a l ih =>
    intro h
    cases l with
    | nil => exact h a (by simp)
    | cons b r =>
      show '\x7b' ∉ ((a ++ ", ") ++ joinComma (b :: r)).data
      refine brace_not_strAppend (brace_not_strAppend (h a (by simp)) (by decide)) ?_
      exact ih fun x hx => h x (by simp [hx])

/-- A preferences record none of whose field values contains the character
U+007B. -/
def BraceFreeP (p : Preferences) : Prop :=
  '\x7b' ∉ p.room_type.data ∧ '\x7b' ∉ p.style.data ∧ '\x7b' ∉ p.budget.data
  ∧ '\x7b' ∉ p.space_size.data
  ∧ (∀ x ∈ p.colors.getD [], '\x7b' ∉ x.data)
  ∧ (∀ x ∈ p.features.getD [], '\x7b' ∉ x.data)
  ∧ '\x7b' ∉ (p.description.getD "").data

/-- The template of _create_layout_prompt contains no brace of its own, so an
uninterpolated placeholder character can only come from a field value. -/
theorem layout_prompt_brace_free {p : Preferences} (hp : BraceFreeP p) :
    '\x7b' ∉ (_create_layout_prompt p).data := by
  obtain ⟨h1, h2, h3, h4, h5, h6, h7⟩ := hp
  unfold _create_layout_prompt
  refine brace_not_strAppend ?_ (by decide)
  refine brace_not_strAppend ?_ h7
  refine brace_not_strAppend ?_ (by decide)
  refine brace_not_strAppend ?_ (brace_not_mem_joinComma h6)
  refine brace_not_strAppend ?_ (by decide)
  refine brace_not_strAppend ?_ (brace_not_mem_joinComma h5)
  refine brace_not_strAppend ?_ (by decide)
  refine brace_not_strAppend ?_ h4
  refine brace_not_strAppend ?_ (by decide)
  refine brace_not_strAppend ?_ h3
  refine brace_not_strAppend ?_ (by decide)
  refine brace_not_strAppend ?_ h2
  refine brace_not_strAppend ?_ (by decide)
  exact brace_not_strAppend (by decide) h1

/-- The concrete preferences record of the C7 scenario. -/
def samplePrefs : Preferences :=
  { room_type := "Living Room"
    style := "Modern"
    budget := "Medium"
    space_size := "Medium (100-200 sq ft)"
    colors := some ["White", "Gray"]
    features := some []
    description := some "" }

set_option maxRecDepth 8192 in
/-- Counterexample for C7 as stated: a preferences record whose colors list
holds the literal placeholder token makes the rendered layout prompt contain
that token, so "the output never contains it for every preferences record"
fails on the code. -/
theorem layout_prompt_token_cex :
    SubStr "\x7bcolors\x7d".data
      (_create_layout_prompt
        { room_type := "Living Room"
          style := "Modern"
          budget := "Medium"
          space_size := "Medium (100-200 sq ft)"
          colors := some ["\x7bcolors\x7d"]
          features := some []
          description := some "" }).data :=
  (containsSub_iff _ _).mp (by decide)

set_option maxRecDepth 8192 in
/-- C7 (amended): the layout prompt interpolates every field of the template.
For the (Living Room, Modern, [White, Gray]) record the output contains the
literal substrings "Living Room", "Modern" and "White, Gray"; and for every
preferences record none of whose field values contains the brace character,
the output does not contain the literal placeholder token. -/
theorem layout_prompt_interpolated (p : Preferences) (hp : BraceFreeP p) :
    SubStr "Living Room".data (_create_layout_prompt samplePrefs).data
    ∧ SubStr "Modern".data (_create_layout_prompt samplePrefs).data
    ∧ SubStr "White, Gray".data (_create_layout_prompt samplePrefs).data
    ∧ ¬ SubStr "\x7bcolors\x7d".data (_create_layout_prompt p).data := by
  refine ⟨(containsSub_iff _ _).mp (by decide), (containsSub_iff _ _).mp (by decide),
    (containsSub_iff _ _).mp (by decide), ?_⟩
  intro hsub
  exact layout_prompt_brace_free hp (hsub.mem_of_mem (by decide))

/-- Witness for C7 at the sample record, whose fields are brace-free. -/
theorem layout_prompt_interpolated_witness :
    SubStr "Living Room".data (_create_layout_prompt samplePrefs).data
    ∧ ¬ SubStr "\x7bcolors\x7d".data (_create_layout_prompt samplePrefs).data :=
  ⟨(layout_prompt_interpolated samplePrefs (by unfold BraceFreeP; decide)).1,
   (layout_prompt_interpolated samplePrefs (by unfold BraceFreeP; decide)).2.2.2⟩

/-- Counterexample for C8 as stated: with style "Modern" the image prompt
contains only the lowercased "modern", never the style string itself, so
"the prompt contains the style" fails on the code. -/
theorem image_prompt_style_cex :
    ¬ SubStr "Modern".data
      (_create_detailed_image_prompt "d"
        { room_type := "Living Room"
          style := "Modern"
          budget := "b"
          space_size := "s"
          colors := some ["White", "Gray"]
          features := some []
          description := some "" }).data :=
  fun h => absurd ((containsSub_iff _ _).mpr h) (by decide)

/-- C8 (amended): the detailed image prompt contains the lowercased style, the
lowercased room type, the comma-joined color list (defaulting to white, gray)
and each of the fixed photographic-quality qualifier phrases
"professional interior photography", "photorealistic" and "high quality". -/
theorem image_prompt_contents (description : String) (p : Preferences) :
    SubStr (pyLower p.style).data (_create_detailed_image_prompt description p).data
    ∧ SubStr (pyLower p.room_type).data (_create_detailed_image_prompt description p).data
    ∧ SubStr (joinComma (p.colors.getD ["white", "gray"])).data
        (_create_detailed_image_prompt description p).data
    ∧ SubStr "professional interior photography".data
        (_create_detailed_image_prompt description p).data
    ∧ SubStr "photorealistic".data (_create_detailed_image_prompt description p).data
    ∧ SubStr "high quality".data (_create_detailed_image_prompt description p).data := by
  have hout : (_create_detailed_image_prompt description p).data
      = ((((("A beautiful ".data ++ (pyLower p.style).data) ++ " ".data)
        ++ (pyLower p.room_type).data) ++ " interior design with ".data)
        ++ (joinComma (p.colors.getD ["white", "gray"])).data)
        ++ " color scheme, professional interior photography, high quality, well-lit, photorealistic".data := by
    unfold _create_detailed_image_prompt
    simp only [strData_append]
  rw [hout]
  refine ⟨SubStr_append_left _ (SubStr_append_left _ (SubStr_append_left _
      (SubStr_append_left _ (SubStr_append_left _ ⟨"A beautiful ".data, [], by simp⟩)))),
    SubStr_append_left _ (SubStr_append_left _ (SubStr_append_left _
      ⟨("A beautiful ".data ++ (pyLower p.style).data) ++ " ".data, [], by simp⟩)),
    SubStr_append_left _ ⟨(((("A beautiful ".data ++ (pyLower p.style).data) ++ " ".data)
      ++ (pyLower p.room_type).data) ++ " interior design with ".data), [], by simp⟩,
    SubStr_append_right _ ((containsSub_iff _ _).mp (by decide)),
    SubStr_append_right _ ((containsSub_iff _ _).mp (by decide)),
    SubStr_append_right _ ((containsSub_iff _ _).mp (by decide))⟩

end HomeDesign
